import Mathlib

/-!
Shallow embedding of src/backends/p_mysql.go, the mysql processor stage of
go-guerrilla: the statement cache, the insert executor, the per-recipient
field derivation, the binary IP encoding and the task dispatch, together
with theorems settling the specification claims about them.

Go byte strings are modelled as Lean strings (all relevant inputs are
ASCII, where Go byte length and character length coincide). Go `nil`
slices and pointers are modelled as `Option.none`. Panics are modelled as
explicit result constructors.
-/

set_option maxRecDepth 4096

namespace Guerrilla

/-! ### Go string helpers -/

/-- Occurrences of a character in a string. -/
def charCount (s : String) (c : Char) : Nat := s.data.count c

/-- Helper for `stringsIndex`: the first position at which the pattern is
a prefix of the remaining text. -/
def stringsIndexAux (pat : List Char) : List Char → Nat → Option Nat
  | [], i => if pat.isEmpty then some i else none
  | c :: t, i => if pat.isPrefixOf (c :: t) then some i else stringsIndexAux pat t (i + 1)

/-- Go `strings.Index`: index of the first occurrence of the pattern, -1
when absent. -/
def stringsIndex (s pat : String) : Int :=
  match stringsIndexAux pat.data s.data 0 with
  | some i => (i : Int)
  | none => -1

/-- ASCII whitespace, the asciiSpace set of the Go strings package:
tab, line feed, vertical tab, form feed, carriage return, space (the
relevant inputs are ASCII, where this agrees with the Unicode set Go
trims). -/
def isSpaceChar (c : Char) : Bool :=
  (9 ≤ c.toNat && c.toNat ≤ 13) || c.toNat == 32

/-- Go `strings.TrimSpace`: leading and trailing whitespace removed. -/
def goTrimSpace (s : String) : String :=
  { data := ((s.data.dropWhile isSpaceChar).reverse.dropWhile isSpaceChar).reverse }

/-- Modelled from the spec: `trimToLimit` is defined outside src/. Spec:
"`truncate(S, 255)` returns S unchanged if `len(S) ≤ 255`, else the first
255 characters." -/
def trimToLimit (s : String) (n : Nat) : String :=
  if s.length ≤ n then s else { data := s.data.take n }

/-! ### IP encoder: `net.ParseIP`, `To4`/`To16`, `big.Int`, `ip2bint`

`net.ParseIP` is standard-library code external to the repository; it is
embedded here following its documented behaviour (the netip parser):
dotted-quad IPv4 (no leading zeros, fields ≤ 255), IPv6 with hex groups,
one optional `::` ellipsis and an optional embedded IPv4 tail; IPv4
results are carried in the 16-byte IPv4-mapped form; zone suffixes make
`net.ParseIP` fail. -/

/-- Digits of a decimal field accumulated to a number (48 is the code
point of the zero digit). -/
def digitsToNatAux : List Char → Nat → Nat
  | [], acc => acc
  | c :: t, acc => digitsToNatAux t (acc * 10 + (c.toNat - 48))

/-- Value of a decimal digit string. -/
def digitsToNat (l : List Char) : Nat := digitsToNatAux l 0

/-- Split a character list at every dot (Go field splitting). -/
def splitDots : List Char → List Char → List (List Char)
  | [], cur => [cur.reverse]
  | c :: t, cur => if c == '.' then cur.reverse :: splitDots t [] else splitDots t (c :: cur)

/-- One dotted-decimal IPv4 field: nonempty, all digits, no leading zero,
value at most 255. -/
def v4Field (f : List Char) : Option Nat :=
  if f.isEmpty then none
  else if !(f.all Char.isDigit) then none
  else if f.length > 1 && f.headD '0' == '0' then none
  else
    let v := digitsToNat f
    if v ≤ 255 then some v else none

/-- Go IPv4 parsing: exactly four dot-separated fields. -/
def parseIPv4 (s : String) : Option (List Nat) :=
  match (splitDots s.data []).map v4Field with
  | [some a, some b, some c, some d] => some [a, b, c, d]
  | _ => none

/-- Value of one hex digit, if any, by code point: 48-57 are the decimal
digits, 97-102 the lowercase and 65-70 the uppercase hex letters. -/
def hexVal (c : Char) : Option Nat :=
  if c.isDigit then some (c.toNat - 48)
  else if 97 ≤ c.toNat && c.toNat ≤ 102 then some (c.toNat - 87)
  else if 65 ≤ c.toNat && c.toNat ≤ 70 then some (c.toNat - 55)
  else none

/-- Maximal run of hex digits with the 16-bit overflow check of the Go
parser: the accumulated value, the digit count and the rest of the input;
`none` means overflow. -/
def hexRun : List Char → Nat → Nat → Option (Nat × Nat × List Char)
  | [], acc, cnt => some (acc, cnt, [])
  | c :: t, acc, cnt =>
    match hexVal c with
    | none => some (acc, cnt, c :: t)
    | some d =>
      let acc2 := acc * 16 + d
      if acc2 > 65535 then none else hexRun t acc2 (cnt + 1)

/-- Ellipsis expansion and the final length checks of the Go IPv6 parser. -/
def finishV6 (bytes : List Nat) (ellipsis : Option Nat) : Option (List Nat) :=
  if bytes.length < 16 then
    match ellipsis with
    | some e => some (bytes.take e ++ List.replicate (16 - bytes.length) 0 ++ bytes.drop e)
    | none => none
  else if bytes.length = 16 then
    match ellipsis with
    | some _ => none
    | none => some bytes
  else none

/-- Main loop of the Go IPv6 parser, fuel-indexed (every step consumes at
least one character, so fuel = input length suffices). -/
def parseV6Loop : Nat → List Char → List Nat → Option Nat → Option (List Nat)
  | 0, _, _, _ => none
  | _ + 1, [], bytes, ellipsis => finishV6 bytes ellipsis
  | fuel + 1, c :: t, bytes, ellipsis =>
    if bytes.length ≥ 16 then none
    else
      match hexRun (c :: t) 0 0 with
      | none => none
      | some (acc, cnt, rest) =>
        if cnt = 0 then none
        else if rest.headD ' ' == '.' then
          if (ellipsis.isSome || bytes.length == 12) && bytes.length + 4 ≤ 16 then
            match parseIPv4 (String.mk (c :: t)) with
            | some quad => finishV6 (bytes ++ quad) ellipsis
            | none => none
          else none
        else
          let bytes2 := bytes ++ [acc / 256, acc % 256]
          match rest with
          | [] => finishV6 bytes2 ellipsis
          | [':'] => none
          | ':' :: ':' :: rest2 =>
            if ellipsis.isSome then none
            else if rest2.isEmpty then finishV6 bytes2 (some bytes2.length)
            else parseV6Loop fuel rest2 bytes2 (some bytes2.length)
          | ':' :: rest2 => parseV6Loop fuel rest2 bytes2 ellipsis
          | _ => none

/-- Go IPv6 parsing. A percent sign introduces a zone, which makes
`net.ParseIP` return nil, so it is rejected here. -/
def parseIPv6 (s : String) : Option (List Nat) :=
  if s.data.contains '%' then none
  else
    match s.data with
    | ':' :: ':' :: rest =>
      if rest.isEmpty then some (List.replicate 16 0)
      else parseV6Loop (rest.length + 1) rest [] (some 0)
    | l => parseV6Loop (l.length + 1) l [] none

/-- First dispatch character of the Go address parser. -/
def firstSpecial : List Char → Option Char
  | [] => none
  | c :: t => if c == '.' || c == ':' || c == '%' then some c else firstSpecial t

/-- The 12 marker bytes of the IPv4-mapped IPv6 form. -/
def v4Marker : List Nat := [0, 0, 0, 0, 0, 0, 0, 0, 0, 0, 255, 255]

/-- Go `net.ParseIP`: dispatch on the first special character; IPv4
results are stored in the 16-byte IPv4-mapped form; nil is `none`. -/
def goParseIP (s : String) : Option (List Nat) :=
  match firstSpecial s.data with
  | some '.' => (parseIPv4 s).map (fun q => v4Marker ++ q)
  | some ':' => parseIPv6 s
  | _ => none

/-- Go `net.IP.To4` applied to a `ParseIP` result. -/
def ipTo4 : Option (List Nat) → Option (List Nat)
  | none => none
  | some b =>
    if b.length = 4 then some b
    else if b.length = 16 && b.take 12 == v4Marker then some (b.drop 12)
    else none

/-- Go `net.IP.To16` applied to a `ParseIP` result. -/
def ipTo16 : Option (List Nat) → Option (List Nat)
  | none => none
  | some b =>
    if b.length = 4 then some (v4Marker ++ b)
    else if b.length = 16 then some b
    else none

/-- `big.Int.SetBytes`: the big-endian value of a byte slice (nil gives 0). -/
def natOfBytes (l : List Nat) : Nat := l.foldl (fun a b => a * 256 + b) 0

/-- Helper for `natToBytes`, fuel-indexed so that it reduces: dividing by
256 shrinks the value, so fuel n + 1 always suffices. -/
def natToBytesAux : Nat → Nat → List Nat
  | 0, _ => []
  | fuel + 1, n => if n = 0 then [] else natToBytesAux fuel (n / 256) ++ [n % 256]

/-- `big.Int.Bytes`: the minimal big-endian bytes of a value (leading
zero bytes are absent; 0 gives the empty slice). -/
def natToBytes (n : Nat) : List Nat := natToBytesAux (n + 1) n

/-- src `ip2bint`: the big.Int built from `To16` when the index of the
double colon in the text is positive, else from `To4`. -/
def ip2bint (ip : String) : Nat :=
  let addr := goParseIP ip
  if stringsIndex ip "::" > 0 then natOfBytes ((ipTo16 addr).getD [])
  else natOfBytes ((ipTo4 addr).getD [])

/-- The bytes bound to the ip_addr column at the call site:
`ip2bint(...).Bytes()`. -/
def ip2bintBytes (ip : String) : List Nat := natToBytes (ip2bint ip)

/-- Validation of the address-parser embedding on standard forms:
dotted quad, loopback, a grouped literal with an ellipsis, and the
IPv4-mapped form with an embedded IPv4 tail. -/
theorem goParseIP_checks :
    parseIPv4 "192.168.1.1" = some [192, 168, 1, 1] ∧
    goParseIP "::1" = some (List.replicate 15 0 ++ [1]) ∧
    goParseIP "2001:db8::1" = some [32, 1, 13, 184, 0, 0, 0, 0, 0, 0, 0, 0, 0, 0, 0, 1] ∧
    goParseIP "::ffff:1.2.3.4" = some (v4Marker ++ [1, 2, 3, 4]) ∧
    goParseIP "::" = some (List.replicate 16 0) ∧
    goParseIP "1::2::3" = none ∧
    goParseIP "256.0.0.1" = none := by decide

/-- Validation of the index helper: the double colon sits at position 0
in the loopback text, at a positive position in grouped literals, and is
absent from dotted quads. -/
theorem stringsIndex_checks :
    stringsIndex "::1" "::" = 0 ∧
    stringsIndex "2001:db8::1" "::" = 8 ∧
    stringsIndex "192.168.1.1" "::" = -1 := by decide

/-- The encoder on a grouped IPv6 literal whose double colon sits at a
positive index: the full 16 bytes are kept, as the leading byte is
nonzero. -/
theorem ip2bintBytes_grouped :
    ip2bintBytes "2001:db8::1" = [32, 1, 13, 184, 0, 0, 0, 0, 0, 0, 0, 0, 0, 0, 0, 1] := by decide

/-! ### Data model: addresses, header, envelope, config -/

/-- Modelled from the spec: the address type of the repository mail
package (not under src/): a local part (User) and a host, rendered to a
single string by its String method. -/
structure Address where
  user : String
  host : String
deriving DecidableEq

/-- Modelled from the spec: the String method of an address renders
local part at host. -/
def Address.render (a : Address) : String := a.user ++ "@" ++ a.host

/-- One header entry: a name and a nonempty value list (first value plus
the rest); Go textproto headers never store an empty value slice. -/
structure HeaderEntry where
  key : String
  first : String
  rest : List String
deriving DecidableEq

/-- Modelled from the spec: the envelope fields this stage reads and
writes (mail.Envelope is not under src/). The rendered field stands for
the String method output (delivery header plus data); the redis flag and
the compressor stand for the two side-channel entries of e.Values, the
compressor being its String rendering. -/
structure Envelope where
  header : List HeaderEntry
  mailFrom : Address
  rcptTo : List Address
  subject : String
  hashes : List String
  hasRedisFlag : Bool
  zlibCompressor : Option String
  tls : Bool
  remoteIP : String
  rendered : String
  queuedId : String
deriving DecidableEq

/-- First value of a header, when the header is present (Go map lookup
plus indexing the first slice element). -/
def headerFirst (e : Envelope) (k : String) : Option String :=
  (e.header.find? (fun h => h.key == k)).map (fun h => h.first)

/-- The envelope with every entry of one header name removed. -/
def eraseHeader (e : Envelope) (k : String) : Envelope :=
  { e with header := e.header.filter (fun h => h.key != k) }

/-- src `fillAddressFromHeader`: parse the first value of the header and
render it; empty string when the header is absent or unparsable. The
parser stands for `mail.NewAddress` (not under src/) and is passed in. -/
def fillAddressFromHeader (na : String → Option Address) (e : Envelope) (headerKey : String) : String :=
  match headerFirst e headerKey with
  | some v =>
    match na v with
    | some addr => addr.render
    | none => ""
  | none => ""

/-- MysqlProcessorConfig. -/
structure Config where
  mysqlTable : String
  mysqlDB : String
  mysqlHost : String
  mysqlPass : String
  mysqlUser : String
  primaryHost : String
deriving DecidableEq

/-! ### Statement cache and SQL text -/

/-- The column list of the INSERT, concatenated exactly as in the source. -/
def insertColumns : String :=
  "(`date`, `to`, `from`, `subject`, `body`,  `mail`, `spam_score`, " ++
  "`hash`, `content_type`, `recipient`, `has_attach`, `ip_addr`, " ++
  "`return_path`, `is_tls`, `message_id`, `reply_to`, `sender`)"

/-- The value tuple of one row, exactly as written in the source: 17
columns, of which three are SQL literals and fourteen are placeholders. -/
def valuesTuple : String := "(NOW(), ?, ?, ?, ? , ?, 0, ?, ?, ?, 0, ?, ?, ?, ?, ?, ?)"

/-- The row loop of prepareInsertQuery: appends the tuple once per row,
with a comma before every tuple except the first. -/
def sqlValuesLoop : Nat → String → String
  | 0, _ => ""
  | n + 1, comma => comma ++ valuesTuple ++ sqlValuesLoop n ","

/-- The fixed text before the value tuples. -/
def sqlHeader (table : String) : String :=
  "INSERT INTO " ++ table ++ " " ++ insertColumns ++ " VALUES "

/-- The full SQL text prepareInsertQuery builds for a row count. -/
def buildSql (table : String) (rows : Nat) : String :=
  sqlHeader table ++ sqlValuesLoop rows ""

/-- A compiled statement: its identity (allocation number) and SQL text. -/
structure Stmt where
  id : Nat
  sql : String
deriving DecidableEq

/-- Modelled from the spec: the stmtCache type is not under src/; the
spec describes a cache keyed by batch size (the source indexes it by
rows - 1) holding at most one compiled statement per size. Compilations
are counted so at-most-once compilation is observable, and statements
carry an allocation number so identity is observable. -/
structure MState where
  cache : List (Nat × Stmt)
  nextId : Nat
  compiles : Nat
deriving DecidableEq

/-- The cache state at stage start: empty, nothing compiled. -/
def MState.empty : MState := ⟨[], 0, 0⟩

/-- Result of prepareInsertQuery: a statement plus the updated state, or
the panic raised on a zero row count. db.Prepare is modelled as
succeeding; in the source its failure is a logged fatal panic. -/
inductive PrepResult
  | ok (stmt : Stmt) (st : MState)
  | panicked (msg : String)
deriving DecidableEq

/-- src `prepareInsertQuery`: panic on rows = 0, return the cached
statement when one exists for this row count, otherwise build the SQL,
compile and cache it. -/
def prepareInsertQuery (table : String) (rows : Nat) (st : MState) : PrepResult :=
  if rows = 0 then .panicked "rows argument cannot be 0"
  else
    match st.cache.find? (fun p => p.1 == rows - 1) with
    | some p => .ok p.2 st
    | none =>
      let stmt : Stmt := ⟨st.nextId, buildSql table rows⟩
      .ok stmt ⟨(rows - 1, stmt) :: st.cache, st.nextId + 1, st.compiles + 1⟩

/-! ### Insert executor -/

/-- A typed value bound to a statement. -/
inductive Val
  | s (v : String)
  | bytes (v : List Nat)
  | b (v : Bool)
deriving DecidableEq

/-- Outcome of one Exec call on the driver: success, a store-reported
error, or a runtime panic. -/
inductive ExecOutcome
  | ok
  | err (msg : String)
  | panicked (msg : String)
deriving DecidableEq

/-- What doQuery does as seen by its caller: a normal return carrying the
(possibly nil) error, or a panic escaping it. The escaping panic carries
the diagnostic the recover handler logs: the summed length of the
string-typed values. -/
inductive DoQueryResult
  | ret (execErr : Option String) (st : MState)
  | panicOut (msg : String) (diagSum : Nat) (st : MState)
deriving DecidableEq

/-- The diagnostic computed in the recover handler of doQuery: total size
of the string-typed inputs. -/
def stringSizeSum (vals : List Val) : Nat :=
  vals.foldl (fun acc v => match v with | .s str => acc + str.length | _ => acc) 0

/-- src `doQuery`: re-prepares the statement (ignoring the one passed
in), executes, and returns exactly the error the driver reported. A panic
anywhere inside — the zero-row panic of prepareInsertQuery or a runtime
fault in Exec — is recovered, logged with the diagnostic sum, and then
re-raised as the fresh panic "query failed", which escapes to the caller. -/
def doQuery (table : String) (exec : List Val → ExecOutcome) (c : Nat) (st : MState) (vals : List Val) : DoQueryResult :=
  match prepareInsertQuery table c st with
  | .panicked _ => .panicOut "query failed" (stringSizeSum vals) st
  | .ok _ st2 =>
    match exec vals with
    | .ok => .ret none st2
    | .err m => .ret (some m) st2
    | .panicked _ => .panicOut "query failed" (stringSizeSum vals) st2

/-- True when doQuery returned to its caller rather than panicking. -/
def DoQueryResult.returns : DoQueryResult → Bool
  | .ret _ _ => true
  | .panicOut _ _ _ => false

/-! ### Field derivation per recipient -/

/-- The to column: the To header when present and parsable, else the
trimmed recipient as given; both limited to 255. -/
def derivedTo (na : String → Option Address) (e : Envelope) (rcpt : Address) : String :=
  if trimToLimit (fillAddressFromHeader na e "To") 255 = "" then
    trimToLimit (goTrimSpace rcpt.render) 255
  else trimToLimit (fillAddressFromHeader na e "To") 255

/-- The message_id column: the Message-Id header when present and
parsable (limited to 255), else the synthesized hash, dot, local part,
at sign, primary host string (fmt.Sprintf, no limit applied). -/
def derivedMid (na : String → Option Address) (cfg : Config) (e : Envelope) (hash : String) (rcpt : Address) : String :=
  if trimToLimit (fillAddressFromHeader na e "Message-Id") 255 = "" then
    hash ++ "." ++ rcpt.user ++ "@" ++ cfg.primaryHost
  else trimToLimit (fillAddressFromHeader na e "Message-Id") 255

/-- The body column computed before the loop: gzip when a compressor was
attached, overridden by redis when the redis marker is present. -/
def bodyMarker (e : Envelope) : String :=
  if e.hasRedisFlag then "redis"
  else if e.zlibCompressor.isSome then "gzip" else ""

/-- The mail column: empty when the body is in redis, the compressor
rendering when one is attached, else the rendered message. -/
def mailColumn (e : Envelope) : String :=
  if bodyMarker e = "redis" then ""
  else
    match e.zlibCompressor with
    | some cs => cs
    | none => e.rendered

/-- The content_type column: the Content-Type header limited to 255,
empty when absent. -/
def contentTypeCol (e : Envelope) : String :=
  match headerFirst e "Content-Type" with
  | some v => trimToLimit v 255
  | none => ""

/-- The 14 values bound for one recipient, in source order: to, from,
subject, body, mail, hash, content_type, recipient, ip_addr,
return_path, is_tls, message_id, reply_to, sender. -/
def rowVals (na : String → Option Address) (cfg : Config) (e : Envelope) (hash : String) (rcpt : Address) : List Val :=
  [Val.s (derivedTo na e rcpt),
   Val.s (trimToLimit e.mailFrom.render 255),
   Val.s (trimToLimit e.subject 255),
   Val.s (bodyMarker e),
   Val.s (mailColumn e),
   Val.s hash,
   Val.s (contentTypeCol e),
   Val.s (trimToLimit (goTrimSpace rcpt.render) 255),
   Val.bytes (ip2bintBytes e.remoteIP),
   Val.s (trimToLimit e.mailFrom.render 255),
   Val.b e.tls,
   Val.s (derivedMid na cfg e hash rcpt),
   Val.s (trimToLimit (fillAddressFromHeader na e "Reply-To") 255),
   Val.s (trimToLimit (fillAddressFromHeader na e "Sender") 255)]

/-! ### Task dispatch -/

/-- Modelled from the spec: the task kinds the backend framework passes
(SelectTask is not under src/); every task other than the two handled
ones is the third case. -/
inductive SelectTask
  | saveMail
  | validateRcpt
  | other
deriving DecidableEq

/-- The two error classifications this stage returns (StorageError and
NoSuchUser of the backends package). -/
inductive BackendErr
  | storageError
  | noSuchUser
deriving DecidableEq

/-- What the process function does with a task: call the next processor
on the (possibly updated) envelope, return a terminal result and error,
or let a panic escape. -/
inductive TaskOutcome
  | forward (e : Envelope)
  | reject (resp : String) (err : BackendErr)
  | crashed (msg : String)
deriving DecidableEq

/-- The outcome with the forwarded envelope abstracted away. -/
inductive OutcomeKind
  | forwarded
  | rejected (resp : String) (err : BackendErr)
  | crashed (msg : String)
deriving DecidableEq

/-- Projection of an outcome to its kind. -/
def TaskOutcome.kind : TaskOutcome → OutcomeKind
  | .forward _ => .forwarded
  | .reject r er => .rejected r er
  | .crashed m => .crashed m

/-- Modelled from the spec: the canned recipient-rejected response text
(response.Canned.FailRcptCmd, not under src/); its exact wording is owned
by the response package. -/
def cannedFailRcptCmd : String := "FailRcptCmd"

/-- Everything observable about one call of the processor: the outcome,
the final envelope (its mutations are visible to the pipeline host), the
values of every insert attempted in order, and the final cache state. -/
structure TaskResult where
  outcome : TaskOutcome
  env : Envelope
  inserts : List (List Val)
  st : MState
deriving DecidableEq

/-- Result of the per-recipient insert loop. -/
inductive LoopResult
  | allOk (st : MState) (inserts : List (List Val))
  | failed (st : MState) (inserts : List (List Val))
  | crashed (msg : String) (st : MState) (inserts : List (List Val))
deriving DecidableEq

/-- The insert attempts a loop result records. -/
def LoopResult.inserts : LoopResult → List (List Val)
  | .allOk _ ins => ins
  | .failed _ ins => ins
  | .crashed _ _ ins => ins

/-- The recipient loop of the save branch: build the row values, obtain
the size-1 statement, run doQuery, and stop at the first error or escaped
panic. The exec oracle is indexed by the number of inserts already
attempted (here equal to the recipient position). -/
def saveLoop (na : String → Option Address) (exec : Nat → List Val → ExecOutcome) (cfg : Config) (e : Envelope) (hash : String) : List Address → Nat → MState → List (List Val) → LoopResult
  | [], _, st, ins => .allOk st ins
  | rcpt :: restRcpts, i, st, ins =>
    let vals := rowVals na cfg e hash rcpt
    match prepareInsertQuery cfg.mysqlTable 1 st with
    | .panicked m => .crashed m st ins
    | .ok _ st1 =>
      match doQuery cfg.mysqlTable (exec i) 1 st1 vals with
      | .ret none st2 => saveLoop na exec cfg e hash restRcpts (i + 1) st2 (ins ++ [vals])
      | .ret (some _) st2 => .failed st2 (ins ++ [vals])
      | .panicOut m _ st2 => .crashed m st2 (ins ++ [vals])

/-- The hash variable of the save branch: the first upstream hash, empty
when there is none. -/
def saveHash (e : Envelope) : String :=
  if e.hashes.isEmpty then "" else e.hashes.headD ""

/-- The queued-id assignment at the top of the save branch, before any
insert: when a hash is present the envelope's queued id becomes the first
hash. -/
def saveEnv (e : Envelope) : Envelope :=
  if e.hashes.isEmpty then e else { e with queuedId := e.hashes.headD "" }

/-- The process function of the MySql decorator: dispatch on the task.
The save branch first sets the queued id from the first hash when one is
present, then loops over the recipients; the validate branch inspects the
last appended recipient only; everything else forwards unchanged. -/
def mysqlProcess (na : String → Option Address) (exec : Nat → List Val → ExecOutcome) (cfg : Config) (st : MState) (e : Envelope) (task : SelectTask) : TaskResult :=
  match task with
  | .saveMail =>
    match saveLoop na exec cfg (saveEnv e) (saveHash e) (saveEnv e).rcptTo 0 st [] with
    | .allOk st2 ins => ⟨.forward (saveEnv e), saveEnv e, ins, st2⟩
    | .failed st2 ins => ⟨.reject "554 Error: could not save email" .storageError, saveEnv e, ins, st2⟩
    | .crashed m st2 ins => ⟨.crashed m, saveEnv e, ins, st2⟩
  | .validateRcpt =>
    match e.rcptTo.getLast? with
    | some last =>
      if last.user.length > 255 then ⟨.reject cannedFailRcptCmd .noSuchUser, e, [], st⟩
      else ⟨.forward e, e, [], st⟩
    | none => ⟨.forward e, e, [], st⟩
  | .other => ⟨.forward e, e, [], st⟩

/-- Spec-side reference definition, following the words of the
specification: rows repetitions of the fixed value tuple joined by
commas. -/
def specTupleBlock : Nat → List Char
  | 0 => []
  | 1 => valuesTuple.data
  | n + 2 => valuesTuple.data ++ ',' :: specTupleBlock (n + 1)

/-! ### Concrete material for witnesses and counterexamples -/

/-- A parser instance that fails on every input. -/
def naNone (_ : String) : Option Address := none

/-- A parser instance that accepts every input, attaching a fixed host. -/
def naEcho (s : String) : Option Address := some ⟨s, "parsed.example"⟩

/-- An exec oracle whose inserts all succeed. -/
def execAllOk : Nat → List Val → ExecOutcome := fun _ _ => .ok

/-- An exec oracle whose inserts all fail with a store error. -/
def execAllErr : Nat → List Val → ExecOutcome := fun _ _ => .err "insert failed"

/-- An exec oracle whose first insert succeeds and whose later inserts
fail with a store error. -/
def execSecondErr : Nat → List Val → ExecOutcome :=
  fun j _ => if j = 0 then .ok else .err "dup"

/-- A sample configuration. -/
def cfg1 : Config := ⟨"mailtbl", "db", "dbhost", "pass", "user", "mail.example.com"⟩

/-- A 255-character local part. -/
def user255 : String := { data := List.replicate 255 'a' }

/-- A 256-character local part. -/
def user256 : String := { data := List.replicate 256 'a' }

/-- A 300-character local part. -/
def user300 : String := { data := List.replicate 300 'a' }

/-- A sample envelope: one recipient, one hash, no side-channel markers. -/
def envBase : Envelope :=
  { header := [], mailFrom := ⟨"alice", "example.com"⟩,
    rcptTo := [⟨"bob", "example.com"⟩], subject := "hi",
    hashes := ["h1"], hasRedisFlag := false, zlibCompressor := none,
    tls := false, remoteIP := "", rendered := "raw mail", queuedId := "" }

/-- The sample envelope with two recipients. -/
def envTwo : Envelope :=
  { envBase with rcptTo := [⟨"bob", "example.com"⟩, ⟨"carol", "example.com"⟩] }

/-- The sample envelope with no hash and a 300-character local part. -/
def env300 : Envelope :=
  { envBase with hashes := [], rcptTo := [⟨user300, "example.com"⟩] }

/-- The sample envelope whose last recipient has a 256-character local
part. -/
def env256 : Envelope := { envBase with rcptTo := [⟨user256, "example.com"⟩] }

/-- The sample envelope whose last recipient has a 255-character local
part. -/
def env255 : Envelope := { envBase with rcptTo := [⟨user255, "example.com"⟩] }

/-- The sample envelope carrying the redis marker and a compressor. -/
def envRedis : Envelope :=
  { envBase with hasRedisFlag := true, zlibCompressor := some "compressed-bytes" }

/-- The sample envelope carrying only a compressor. -/
def envGzip : Envelope := { envBase with zlibCompressor := some "compressed-bytes" }

/-- The sample envelope with an unparsable To header. -/
def envBadTo : Envelope := { envBase with header := [⟨"To", "garbage", []⟩] }

/-- The sample envelope with a Message-Id header. -/
def envMid : Envelope := { envBase with header := [⟨"Message-Id", "mid-value", []⟩] }

/-- Length of a string-typed value, for closed statements about one row
position. -/
def valLen : Option Val → Nat
  | some (Val.s v) => v.length
  | _ => 0

/-! ### Helper lemmas -/

theorem strData_append (a b : String) : (a ++ b).data = a.data ++ b.data := rfl

theorem trimToLimit_length_le (s : String) (n : Nat) : (trimToLimit s n).length ≤ n := by
  unfold trimToLimit
  split
  · assumption
  · show (s.data.take n).length ≤ n
    simp [List.length_take]

theorem mysqlProcess_save_env (na : String → Option Address) (exec : Nat → List Val → ExecOutcome) (cfg : Config) (st : MState) (e : Envelope) :
    (mysqlProcess na exec cfg st e .saveMail).env = saveEnv e := by
  unfold mysqlProcess
  cases saveLoop na exec cfg (saveEnv e) (saveHash e) (saveEnv e).rcptTo 0 st [] <;> rfl

theorem mysqlProcess_save_inserts (na : String → Option Address) (exec : Nat → List Val → ExecOutcome) (cfg : Config) (st : MState) (e : Envelope) :
    (mysqlProcess na exec cfg st e .saveMail).inserts =
      (saveLoop na exec cfg (saveEnv e) (saveHash e) (saveEnv e).rcptTo 0 st []).inserts := by
  unfold mysqlProcess
  cases saveLoop na exec cfg (saveEnv e) (saveHash e) (saveEnv e).rcptTo 0 st [] <;> rfl

theorem saveEnv_rcptTo (e : Envelope) : (saveEnv e).rcptTo = e.rcptTo := by
  unfold saveEnv; split <;> rfl

/-! ### C1: the insert executor boundary -/

/-- C1 counterexample: a runtime fault during insert execution is not
converted into a returned insert error; at this concrete input doQuery
does not return to its caller, the re-raised panic escapes instead. -/
theorem c1_panic_escapes :
    (doQuery "t" (fun _ => ExecOutcome.panicked "runtime fault") 1 MState.empty [Val.s "x"]).returns = false := by
  decide

/-- C1 amended: store-reported errors are returned to the caller as the
insert error; a runtime fault (or a zero row count) is recovered, the
diagnostic sum of the string-typed inputs is logged, and then a fresh
panic "query failed" is re-raised, which does escape doQuery to the
caller. -/
theorem c1_doQuery_boundary (table : String) (exec : List Val → ExecOutcome) (c : Nat) (st : MState) (vals : List Val) (s2 : Stmt) (st2 : MState) (hprep : prepareInsertQuery table c st = .ok s2 st2) :
    (∀ m, exec vals = .panicked m →
      doQuery table exec c st vals = .panicOut "query failed" (stringSizeSum vals) st2) ∧
    (∀ m, exec vals = .err m → doQuery table exec c st vals = .ret (some m) st2) ∧
    (exec vals = .ok → doQuery table exec c st vals = .ret none st2) ∧
    doQuery table exec 0 st vals = .panicOut "query failed" (stringSizeSum vals) st := by
  refine ⟨fun m hm => ?_, fun m hm => ?_, fun hm => ?_, ?_⟩
  · unfold doQuery; rw [hprep, hm]
  · unfold doQuery; rw [hprep, hm]
  · unfold doQuery; rw [hprep, hm]
  · unfold doQuery
    have hz : prepareInsertQuery table 0 st = .panicked "rows argument cannot be 0" := by
      unfold prepareInsertQuery; simp
    rw [hz]

/-- The statement compiled for row count 1 against table t. -/
def stmtT1 : Stmt := ⟨0, buildSql "t" 1⟩

/-- The cache state after compiling `stmtT1` from the empty state. -/
def stT1 : MState := ⟨[(0, stmtT1)], 1, 1⟩

/-- C1 witness: the amended boundary behaviour at concrete inputs. -/
theorem c1_doQuery_boundary_witness :
    doQuery "t" (fun _ => ExecOutcome.panicked "runtime fault") 1 MState.empty [Val.s "x"] = .panicOut "query failed" 1 stT1 ∧
    doQuery "t" (fun _ => ExecOutcome.err "store error") 1 MState.empty [Val.s "x"] = .ret (some "store error") stT1 :=
  ⟨(c1_doQuery_boundary "t" (fun _ => ExecOutcome.panicked "runtime fault") 1 MState.empty [Val.s "x"] stmtT1 stT1 (by decide)).1 "runtime fault" rfl,
   (c1_doQuery_boundary "t" (fun _ => ExecOutcome.err "store error") 1 MState.empty [Val.s "x"] stmtT1 stT1 (by decide)).2.1 "store error" rfl⟩

/-! ### C2: the IP encoder -/

/-- C2: evaluation at the failing input. The text "::1" contains the
double colon and parses to the 16-byte loopback address, yet the encoder
yields the empty byte string, because strings.Index returns 0 there and
the source tests for a strictly positive index before taking the 16-byte
branch, and To4 of a non-mapped IPv6 address is nil. The dotted-quad
input takes the 4-byte branch as claimed. -/
theorem c2_ip2bint_doubleColon :
    stringsIndex "::1" "::" = 0 ∧
    goParseIP "::1" = some (List.replicate 15 0 ++ [1]) ∧
    ip2bintBytes "::1" = [] ∧
    ip2bintBytes "192.168.1.1" = [192, 168, 1, 1] := by decide

/-! ### C3: the queued id -/

/-- C3 counterexample: with one hash and a failing insert, the save task
returns the terminal storage failure, yet the queued id has been changed
to the first hash, which was empty before the task. -/
theorem c3_queuedId_set_despite_failure :
    (mysqlProcess naNone execAllErr cfg1 MState.empty envBase .saveMail).outcome = .reject "554 Error: could not save email" .storageError ∧
    (mysqlProcess naNone execAllErr cfg1 MState.empty envBase .saveMail).env.queuedId = "h1" ∧
    envBase.queuedId = "" := by decide

/-- C3 amended: the queued id is set to the first upstream hash (when one
is present) at the start of the save task, before any insert, so it holds
that value whatever the outcome — including a terminal storage failure;
with no hashes it is left unchanged. -/
theorem c3_queuedId_first_hash_upfront (na : String → Option Address) (exec : Nat → List Val → ExecOutcome) (cfg : Config) (st : MState) (e : Envelope) :
    (∀ h hs, e.hashes = h :: hs → (mysqlProcess na exec cfg st e .saveMail).env.queuedId = h) ∧
    (e.hashes = [] → (mysqlProcess na exec cfg st e .saveMail).env.queuedId = e.queuedId) := by
  constructor
  · intro h hs hh
    rw [mysqlProcess_save_env]
    unfold saveEnv
    rw [hh]
    simp
  · intro hh
    rw [mysqlProcess_save_env]
    unfold saveEnv
    rw [hh]
    simp

/-- C3 witness: the amended queued-id behaviour at concrete inputs, on a
failing save and on a hashless save. -/
theorem c3_queuedId_first_hash_upfront_witness :
    (mysqlProcess naNone execAllErr cfg1 MState.empty envBase .saveMail).env.queuedId = "h1" ∧
    (mysqlProcess naNone execAllOk cfg1 MState.empty env300 .saveMail).env.queuedId = env300.queuedId :=
  ⟨(c3_queuedId_first_hash_upfront naNone execAllErr cfg1 MState.empty envBase).1 "h1" [] (by decide),
   (c3_queuedId_first_hash_upfront naNone execAllOk cfg1 MState.empty env300).2 (by decide)⟩

/-! ### C9: the validate-recipient branch -/

/-- C9: the validate branch performs no insert, leaves the envelope
unchanged, and decides on the last appended recipient alone: a local part
longer than 255 is rejected as no-such-user with the canned response, any
other forwards to the next processor. -/
theorem c9_validate_last_rcpt (na : String → Option Address) (exec : Nat → List Val → ExecOutcome) (cfg : Config) (st : MState) (e : Envelope) (last : Address)
    (hlast : e.rcptTo.getLast? = some last) :
    (mysqlProcess na exec cfg st e .validateRcpt).inserts = [] ∧
    (mysqlProcess na exec cfg st e .validateRcpt).env = e ∧
    (255 < last.user.length →
      (mysqlProcess na exec cfg st e .validateRcpt).outcome = .reject cannedFailRcptCmd .noSuchUser) ∧
    (last.user.length ≤ 255 →
      (mysqlProcess na exec cfg st e .validateRcpt).outcome = .forward e) := by
  have hred : mysqlProcess na exec cfg st e .validateRcpt =
      if last.user.length > 255 then ⟨.reject cannedFailRcptCmd .noSuchUser, e, [], st⟩
      else ⟨.forward e, e, [], st⟩ := by
    unfold mysqlProcess
    rw [hlast]
  rw [hred]
  by_cases hc : 255 < last.user.length
  · rw [if_pos hc]
    exact ⟨rfl, rfl, fun _ => rfl, fun hle => absurd hc (by omega)⟩
  · rw [if_neg hc]
    exact ⟨rfl, rfl, fun hgt => absurd hgt hc, fun _ => rfl⟩

/-! ### C4: message-id length -/

/-- C4 counterexample: with no Message-Id header, no hash and a
300-character local part, the message-id value bound for the recipient
(row position 11) is longer than 255 characters: the synthesized
fallback is not truncated. -/
theorem c4_mid_exceeds_255 :
    255 < valLen (((mysqlProcess naNone execAllOk cfg1 MState.empty env300 .saveMail).inserts.headD [])[11]?) := by
  decide

/-- C4 amended: the message-id taken from the Message-Id header is
truncated to 255 characters; the synthesized fallback is the exact hash,
dot, local part, at sign, primary host string, with no truncation
applied, and can exceed 255 characters. -/
theorem c4_mid_truncation (na : String → Option Address) (cfg : Config) (e : Envelope) (hash : String) (rcpt : Address) :
    (trimToLimit (fillAddressFromHeader na e "Message-Id") 255 ≠ "" →
      (derivedMid na cfg e hash rcpt).length ≤ 255) ∧
    (trimToLimit (fillAddressFromHeader na e "Message-Id") 255 = "" →
      derivedMid na cfg e hash rcpt = hash ++ "." ++ rcpt.user ++ "@" ++ cfg.primaryHost) := by
  constructor
  · intro hne
    unfold derivedMid
    rw [if_neg hne]
    exact trimToLimit_length_le _ 255
  · intro heq
    unfold derivedMid
    rw [if_pos heq]

/-- C4 witness: the amended truncation behaviour at concrete inputs, on
a parsable Message-Id header and on a missing one. -/
theorem c4_mid_truncation_witness :
    (derivedMid naEcho cfg1 envMid "h1" ⟨"bob", "example.com"⟩).length ≤ 255 ∧
    derivedMid naNone cfg1 env300 "" ⟨user300, "example.com"⟩ = "" ++ "." ++ user300 ++ "@" ++ cfg1.primaryHost :=
  ⟨(c4_mid_truncation naEcho cfg1 envMid "h1" ⟨"bob", "example.com"⟩).1 (by decide),
   (c4_mid_truncation naNone cfg1 env300 "" ⟨user300, "example.com"⟩).2 (by decide)⟩

/-! ### C5: row arity and placeholder count -/

theorem rowVals_length (na : String → Option Address) (cfg : Config) (e : Envelope) (hash : String) (rcpt : Address) :
    (rowVals na cfg e hash rcpt).length = 14 := rfl

theorem saveLoop_inserts_shape (na : String → Option Address) (exec : Nat → List Val → ExecOutcome) (cfg : Config) (e : Envelope) (hash : String) :
    ∀ (rcpts : List Address) (i : Nat) (st : MState) (ins : List (List Val)) (row : List Val),
      row ∈ (saveLoop na exec cfg e hash rcpts i st ins).inserts →
      row ∈ ins ∨ ∃ rc ∈ rcpts, row = rowVals na cfg e hash rc := by
  intro rcpts
  induction rcpts with
  | nil =>
    intro i st ins row hrow
    exact Or.inl hrow
  | cons rc rest ih =>
    intro i st ins row hrow
    cases hp : prepareInsertQuery cfg.mysqlTable 1 st with
    | panicked m =>
      have hs : saveLoop na exec cfg e hash (rc :: rest) i st ins = .crashed m st ins := by
        simp [saveLoop, hp]
      rw [hs] at hrow
      exact Or.inl hrow
    | ok s st1 =>
      cases hq : doQuery cfg.mysqlTable (exec i) 1 st1 (rowVals na cfg e hash rc) with
      | ret oe st2 =>
        cases oe with
        | none =>
          have hs : saveLoop na exec cfg e hash (rc :: rest) i st ins =
              saveLoop na exec cfg e hash rest (i + 1) st2 (ins ++ [rowVals na cfg e hash rc]) := by
            simp [saveLoop, hp, hq]
          rw [hs] at hrow
          rcases ih (i + 1) st2 (ins ++ [rowVals na cfg e hash rc]) row hrow with hin | ⟨rc2, hrc2, hr⟩
          · rcases List.mem_append.mp hin with h1 | h2
            · exact Or.inl h1
            · refine Or.inr ⟨rc, List.mem_cons_self rc rest, ?_⟩
              simpa using h2
          · exact Or.inr ⟨rc2, List.mem_cons_of_mem rc hrc2, hr⟩
        | some m =>
          have hs : saveLoop na exec cfg e hash (rc :: rest) i st ins =
              .failed st2 (ins ++ [rowVals na cfg e hash rc]) := by
            simp [saveLoop, hp, hq]
          rw [hs] at hrow
          rcases List.mem_append.mp hrow with h1 | h2
          · exact Or.inl h1
          · refine Or.inr ⟨rc, List.mem_cons_self rc rest, ?_⟩
            simpa using h2
      | panicOut m d st2 =>
        have hs : saveLoop na exec cfg e hash (rc :: rest) i st ins =
            .crashed m st2 (ins ++ [rowVals na cfg e hash rc]) := by
          simp [saveLoop, hp, hq]
        rw [hs] at hrow
        rcases List.mem_append.mp hrow with h1 | h2
        · exact Or.inl h1
        · refine Or.inr ⟨rc, List.mem_cons_self rc rest, ?_⟩
          simpa using h2

theorem sqlValuesLoop_qcount : ∀ (n : Nat) (comma : String), comma.data.count '?' = 0 →
    (sqlValuesLoop n comma).data.count '?' = 14 * n := by
  intro n
  induction n with
  | zero =>
    intro comma h
    simp [sqlValuesLoop]
  | succ k ih =>
    intro comma h
    show ((comma ++ valuesTuple ++ sqlValuesLoop k ",").data.count '?') = 14 * (k + 1)
    rw [strData_append, strData_append, List.count_append, List.count_append, h,
      ih "," (by decide)]
    have hv : valuesTuple.data.count '?' = 14 := by decide
    rw [hv]
    ring

theorem sqlHeader_qcount (table : String) (htab : table.data.count '?' = 0) :
    (sqlHeader table).data.count '?' = 0 := by
  unfold sqlHeader
  rw [strData_append, strData_append, strData_append, strData_append]
  simp only [List.count_append]
  rw [htab]
  decide

/-- C5 counterexample: a concrete save binds 14 values per row, not 17,
and the size-1 statement carries 14 placeholders, not 17. -/
theorem c5_not_seventeen :
    (((mysqlProcess naNone execAllOk cfg1 MState.empty envBase .saveMail).inserts.headD []).length = 14) ∧
    ¬ (((mysqlProcess naNone execAllOk cfg1 MState.empty envBase .saveMail).inserts.headD []).length = 17) ∧
    charCount (buildSql "mailtbl" 1) '?' = 14 ∧
    ¬ (charCount (buildSql "mailtbl" 1) '?' = 17 * 1) := by decide

/-- C5 amended: each recipient of a save task contributes an ordered row
of exactly 14 bound values (the other three of the 17 named columns are
filled by SQL literals), and the compiled statement for batch size rows
accepts 14 times rows bound parameters. -/
theorem c5_row_values_14 (na : String → Option Address) (exec : Nat → List Val → ExecOutcome) (cfg : Config) (st : MState) (e : Envelope) :
    (∀ row ∈ (mysqlProcess na exec cfg st e .saveMail).inserts, row.length = 14) ∧
    (∀ table rows, charCount table '?' = 0 → charCount (buildSql table rows) '?' = 14 * rows) := by
  constructor
  · intro row hrow
    rw [mysqlProcess_save_inserts] at hrow
    rcases saveLoop_inserts_shape na exec cfg (saveEnv e) (saveHash e) (saveEnv e).rcptTo 0 st [] row hrow with hin | ⟨rc, _, hr⟩
    · exact absurd hin (List.not_mem_nil row)
    · rw [hr]; rfl
  · intro table rows htab
    show (sqlHeader table ++ sqlValuesLoop rows "").data.count '?' = 14 * rows
    rw [strData_append, List.count_append, sqlHeader_qcount table htab,
      sqlValuesLoop_qcount rows "" (by decide)]
    omega

/-- C5 witness: the amended arity at concrete inputs. -/
theorem c5_row_values_14_witness :
    ((mysqlProcess naNone execAllOk cfg1 MState.empty envBase .saveMail).inserts.headD []).length = 14 ∧
    charCount (buildSql "mailtbl" 2) '?' = 14 * 2 :=
  ⟨(c5_row_values_14 naNone execAllOk cfg1 MState.empty envBase).1
      ((mysqlProcess naNone execAllOk cfg1 MState.empty envBase .saveMail).inserts.headD []) (by decide),
   (c5_row_values_14 naNone execAllOk cfg1 MState.empty envBase).2 "mailtbl" 2 (by decide)⟩

/-! ### C6: the statement cache -/

theorem sqlValuesLoop_comma_data : ∀ n : Nat, (sqlValuesLoop (n + 1) ",").data = ',' :: specTupleBlock (n + 1) := by
  intro n
  induction n with
  | zero => decide
  | succ k ih =>
    show (("," ++ valuesTuple ++ sqlValuesLoop (k + 1) ",").data) = ',' :: specTupleBlock (k + 2)
    rw [strData_append, strData_append, ih]
    show ((",").data ++ valuesTuple.data) ++ (',' :: specTupleBlock (k + 1)) = ',' :: specTupleBlock (k + 2)
    simp [specTupleBlock]

theorem sqlValuesLoop_data (n : Nat) (h : 1 ≤ n) : (sqlValuesLoop n "").data = specTupleBlock n := by
  match n, h with
  | 1, _ => decide
  | n + 2, _ =>
    show (("" ++ valuesTuple ++ sqlValuesLoop (n + 1) ",").data) = specTupleBlock (n + 2)
    rw [strData_append, strData_append, sqlValuesLoop_comma_data n]
    show (("").data ++ valuesTuple.data) ++ (',' :: specTupleBlock (n + 1)) = specTupleBlock (n + 2)
    simp [specTupleBlock]

/-- C6: the SQL compiled for batch size rows is the fixed header followed
by exactly rows value tuples joined by commas; from the empty cache
exactly one compilation happens; and a second call with the same size
returns the very statement the first call cached, with the cache state
unchanged (so no recompilation ever happens for a size already seen). -/
theorem c6_statement_cache :
    (∀ table rows st s st2, prepareInsertQuery table rows st = .ok s st2 →
      prepareInsertQuery table rows st2 = .ok s st2) ∧
    (∀ table rows s st2, 1 ≤ rows → prepareInsertQuery table rows MState.empty = .ok s st2 →
      s.sql.data = (sqlHeader table).data ++ specTupleBlock rows ∧ st2.compiles = 1) := by
  constructor
  · intro table rows st s st2 hok
    unfold prepareInsertQuery at hok ⊢
    by_cases hz : rows = 0
    · rw [if_pos hz] at hok
      exact absurd hok (by simp)
    · rw [if_neg hz] at hok ⊢
      cases hf : st.cache.find? (fun p => p.1 == rows - 1) with
      | some p =>
        rw [hf] at hok
        injection hok with h1 h2
        subst h1
        subst h2
        rw [hf]
      | none =>
        rw [hf] at hok
        injection hok with h1 h2
        subst h1
        subst h2
        rw [List.find?_cons_of_pos _ (by simp)]
  · intro table rows s st2 hge hok
    unfold prepareInsertQuery at hok
    rw [if_neg (by omega)] at hok
    simp only [MState.empty, List.find?_nil] at hok
    injection hok with h1 h2
    subst h1
    subst h2
    constructor
    · show (sqlHeader table ++ sqlValuesLoop rows "").data = (sqlHeader table).data ++ specTupleBlock rows
      rw [strData_append, sqlValuesLoop_data rows hge]
    · rfl

/-- The statement compiled for row count 2 against table t. -/
def stmtT2 : Stmt := ⟨0, buildSql "t" 2⟩

/-- The cache state after compiling `stmtT2` from the empty state. -/
def stT2 : MState := ⟨[(1, stmtT2)], 1, 1⟩

/-- C6 witness: the cache behaviour at batch size 2 from the empty
state. -/
theorem c6_statement_cache_witness :
    prepareInsertQuery "t" 2 stT2 = .ok stmtT2 stT2 ∧
    stmtT2.sql.data = (sqlHeader "t").data ++ specTupleBlock 2 ∧
    stT2.compiles = 1 :=
  ⟨c6_statement_cache.1 "t" 2 MState.empty stmtT2 stT2 (by decide),
   (c6_statement_cache.2 "t" 2 stmtT2 stT2 (by decide) (by decide)).1,
   (c6_statement_cache.2 "t" 2 stmtT2 stT2 (by decide) (by decide)).2⟩

/-! ### C7: abort on insert error -/

theorem prepareInsertQuery_one_ok (table : String) (st : MState) :
    ∃ s st2, prepareInsertQuery table 1 st = .ok s st2 := by
  unfold prepareInsertQuery
  rw [if_neg (by omega)]
  cases hf : st.cache.find? (fun p => p.1 == 1 - 1) with
  | some p => exact ⟨p.2, st, rfl⟩
  | none => exact ⟨_, _, rfl⟩

theorem saveLoop_fail_at (na : String → Option Address) (exec : Nat → List Val → ExecOutcome) (cfg : Config) (e : Envelope) (hash : String) (m : String) :
    ∀ (i : Nat) (rcpts : List Address) (b : Nat) (st : MState) (ins : List (List Val)),
      i < rcpts.length →
      (∀ j vs, j < i → exec (b + j) vs = .ok) →
      (∀ vs, exec (b + i) vs = .err m) →
      ∃ st2 ins2, saveLoop na exec cfg e hash rcpts b st ins = .failed st2 ins2 ∧
        ins2.length = ins.length + i + 1 := by
  intro i
  induction i with
  | zero =>
    intro rcpts b st ins hlen hok herr
    match rcpts, hlen with
    | rc :: rest, _ =>
      obtain ⟨s1, st1, hp⟩ := prepareInsertQuery_one_ok cfg.mysqlTable st
      obtain ⟨s2, st2, hp2⟩ := prepareInsertQuery_one_ok cfg.mysqlTable st1
      have herr0 : exec b (rowVals na cfg e hash rc) = .err m := herr (rowVals na cfg e hash rc)
      have hq : doQuery cfg.mysqlTable (exec b) 1 st1 (rowVals na cfg e hash rc) = .ret (some m) st2 := by
        unfold doQuery
        rw [hp2, herr0]
      have hs : saveLoop na exec cfg e hash (rc :: rest) b st ins =
          .failed st2 (ins ++ [rowVals na cfg e hash rc]) := by
        simp [saveLoop, hp, hq]
      exact ⟨st2, ins ++ [rowVals na cfg e hash rc], hs, by simp⟩
  | succ k ih =>
    intro rcpts b st ins hlen hok herr
    match rcpts, hlen with
    | rc :: rest, hlen =>
      obtain ⟨s1, st1, hp⟩ := prepareInsertQuery_one_ok cfg.mysqlTable st
      obtain ⟨s2, st2, hp2⟩ := prepareInsertQuery_one_ok cfg.mysqlTable st1
      have hok0 : exec b (rowVals na cfg e hash rc) = .ok := hok 0 (rowVals na cfg e hash rc) (Nat.succ_pos k)
      have hq : doQuery cfg.mysqlTable (exec b) 1 st1 (rowVals na cfg e hash rc) = .ret none st2 := by
        unfold doQuery
        rw [hp2, hok0]
      have hs : saveLoop na exec cfg e hash (rc :: rest) b st ins =
          saveLoop na exec cfg e hash rest (b + 1) st2 (ins ++ [rowVals na cfg e hash rc]) := by
        simp [saveLoop, hp, hq]
      rw [hs]
      obtain ⟨st3, ins3, hs3, hlen3⟩ := ih rest (b + 1) st2 (ins ++ [rowVals na cfg e hash rc])
        (Nat.lt_of_succ_lt_succ hlen)
        (fun j vs hj => by
          rw [show b + 1 + j = b + (j + 1) from by omega]
          exact hok (j + 1) vs (by omega))
        (fun vs => by
          rw [show b + 1 + k = b + (k + 1) from by omega]
          exact herr vs)
      refine ⟨st3, ins3, hs3, ?_⟩
      simp only [List.length_append, List.length_cons, List.length_nil] at hlen3 ⊢
      omega

/-- C7: when the first i inserts of a save task succeed and insert i
reports a store error, the task stops there — exactly i + 1 inserts are
attempted, the remaining recipients are skipped — and it returns the
storage-error classification with the fixed "could not save email"
response instead of forwarding. -/
theorem c7_abort_on_insert_error (na : String → Option Address) (exec : Nat → List Val → ExecOutcome) (cfg : Config) (st : MState) (e : Envelope) (i : Nat) (m : String)
    (hlen : i < e.rcptTo.length)
    (hok : ∀ j vs, j < i → exec j vs = .ok)
    (herr : ∀ vs, exec i vs = .err m) :
    (mysqlProcess na exec cfg st e .saveMail).outcome = .reject "554 Error: could not save email" .storageError ∧
    (mysqlProcess na exec cfg st e .saveMail).inserts.length = i + 1 := by
  obtain ⟨st2, ins2, hs, hlen2⟩ :=
    saveLoop_fail_at na exec cfg (saveEnv e) (saveHash e) m i (saveEnv e).rcptTo 0 st []
      (by rwa [saveEnv_rcptTo])
      (fun j vs hj => by rw [Nat.zero_add]; exact hok j vs hj)
      (fun vs => by rw [Nat.zero_add]; exact herr vs)
  have hred : mysqlProcess na exec cfg st e .saveMail =
      ⟨.reject "554 Error: could not save email" .storageError, saveEnv e, ins2, st2⟩ := by
    unfold mysqlProcess
    rw [hs]
  rw [hred]
  refine ⟨rfl, ?_⟩
  show ins2.length = i + 1
  simp only [List.length_nil] at hlen2
  omega

/-- C7 witness: with two recipients, a success then a store error: the
task rejects with the fixed message and attempts exactly two inserts. -/
theorem c7_abort_on_insert_error_witness :
    (mysqlProcess naNone execSecondErr cfg1 MState.empty envTwo .saveMail).outcome = .reject "554 Error: could not save email" .storageError ∧
    (mysqlProcess naNone execSecondErr cfg1 MState.empty envTwo .saveMail).inserts.length = 1 + 1 :=
  c7_abort_on_insert_error naNone execSecondErr cfg1 MState.empty envTwo 1 "dup"
    (by decide)
    (fun j vs hj => by
      have hj0 : j = 0 := by omega
      subst hj0
      rfl)
    (fun vs => rfl)

/-! ### C8: body-mode marker priority -/

theorem saveEnv_bodyMarker (e : Envelope) : bodyMarker (saveEnv e) = bodyMarker e := by
  unfold saveEnv
  split <;> rfl

theorem saveEnv_mailColumn (e : Envelope) : mailColumn (saveEnv e) = mailColumn e := by
  unfold saveEnv
  split <;> rfl

/-- C8: for every row bound by a save task, the body marker at position 3
and the mail blob at position 4 follow the priority: redis marker present
gives "redis" and an empty blob (even when a compressor is attached);
otherwise an attached compressor gives "gzip" and the compressor
rendering; otherwise an empty marker and the full rendered message. -/
theorem c8_body_mode_priority (na : String → Option Address) (exec : Nat → List Val → ExecOutcome) (cfg : Config) (st : MState) (e : Envelope) (row : List Val)
    (hrow : row ∈ (mysqlProcess na exec cfg st e .saveMail).inserts) :
    (e.hasRedisFlag = true → row[3]? = some (Val.s "redis") ∧ row[4]? = some (Val.s "")) ∧
    (∀ cs, e.hasRedisFlag = false → e.zlibCompressor = some cs →
      row[3]? = some (Val.s "gzip") ∧ row[4]? = some (Val.s cs)) ∧
    (e.hasRedisFlag = false → e.zlibCompressor = none →
      row[3]? = some (Val.s "") ∧ row[4]? = some (Val.s e.rendered)) := by
  rw [mysqlProcess_save_inserts] at hrow
  rcases saveLoop_inserts_shape na exec cfg (saveEnv e) (saveHash e) (saveEnv e).rcptTo 0 st [] row hrow with hin | ⟨rc, _, hr⟩
  · exact absurd hin (List.not_mem_nil row)
  · subst hr
    have h3 : (rowVals na cfg (saveEnv e) (saveHash e) rc)[3]? = some (Val.s (bodyMarker (saveEnv e))) := rfl
    have h4 : (rowVals na cfg (saveEnv e) (saveHash e) rc)[4]? = some (Val.s (mailColumn (saveEnv e))) := rfl
    rw [h3, h4, saveEnv_bodyMarker, saveEnv_mailColumn]
    refine ⟨?_, ?_, ?_⟩
    · intro hflag
      unfold bodyMarker mailColumn bodyMarker
      rw [hflag]
      simp
    · intro cs hflag hcs
      unfold bodyMarker mailColumn bodyMarker
      rw [hflag, hcs]
      simp
    · intro hflag hcs
      unfold bodyMarker mailColumn bodyMarker
      rw [hflag, hcs]
      simp

/-- C8 witness: the three priority cases at concrete envelopes — redis
marker with a compressor attached, compressor only, and neither. -/
theorem c8_body_mode_priority_witness :
    (((mysqlProcess naNone execAllOk cfg1 MState.empty envRedis .saveMail).inserts.headD [])[3]? = some (Val.s "redis") ∧
      ((mysqlProcess naNone execAllOk cfg1 MState.empty envRedis .saveMail).inserts.headD [])[4]? = some (Val.s "")) ∧
    (((mysqlProcess naNone execAllOk cfg1 MState.empty envGzip .saveMail).inserts.headD [])[3]? = some (Val.s "gzip") ∧
      ((mysqlProcess naNone execAllOk cfg1 MState.empty envGzip .saveMail).inserts.headD [])[4]? = some (Val.s "compressed-bytes")) ∧
    (((mysqlProcess naNone execAllOk cfg1 MState.empty envBase .saveMail).inserts.headD [])[3]? = some (Val.s "") ∧
      ((mysqlProcess naNone execAllOk cfg1 MState.empty envBase .saveMail).inserts.headD [])[4]? = some (Val.s envBase.rendered)) :=
  ⟨(c8_body_mode_priority naNone execAllOk cfg1 MState.empty envRedis
      ((mysqlProcess naNone execAllOk cfg1 MState.empty envRedis .saveMail).inserts.headD []) (by decide)).1 rfl,
   (c8_body_mode_priority naNone execAllOk cfg1 MState.empty envGzip
      ((mysqlProcess naNone execAllOk cfg1 MState.empty envGzip .saveMail).inserts.headD []) (by decide)).2.1 "compressed-bytes" rfl rfl,
   (c8_body_mode_priority naNone execAllOk cfg1 MState.empty envBase
      ((mysqlProcess naNone execAllOk cfg1 MState.empty envBase .saveMail).inserts.headD []) (by decide)).2.2 rfl rfl⟩

/-- C9 witness: a 256-character local part is rejected without inserts, a
255-character one forwards. -/
theorem c9_validate_last_rcpt_witness :
    (mysqlProcess naNone execAllOk cfg1 MState.empty env256 .validateRcpt).outcome = .reject cannedFailRcptCmd .noSuchUser ∧
    (mysqlProcess naNone execAllOk cfg1 MState.empty env256 .validateRcpt).inserts = [] ∧
    (mysqlProcess naNone execAllOk cfg1 MState.empty env255 .validateRcpt).outcome = .forward env255 :=
  ⟨(c9_validate_last_rcpt naNone execAllOk cfg1 MState.empty env256 ⟨user256, "example.com"⟩ (by decide)).2.2.1 (by decide),
   (c9_validate_last_rcpt naNone execAllOk cfg1 MState.empty env256 ⟨user256, "example.com"⟩ (by decide)).1,
   (c9_validate_last_rcpt naNone execAllOk cfg1 MState.empty env255 ⟨user255, "example.com"⟩ (by decide)).2.2.2 (by decide)⟩

/-! ### C10: unparsable headers behave like absent headers -/

theorem find?_filter_ne (l : List HeaderEntry) (k : String) :
    (l.filter (fun h => h.key != k)).find? (fun h => h.key == k) = none := by
  induction l with
  | nil => rfl
  | cons a t ih =>
    by_cases ha : a.key = k
    · simp only [List.filter_cons, ha, bne_self_eq_false, Bool.false_eq_true, if_false]
      exact ih
    · have hbne : (a.key != k) = true := bne_iff_ne.mpr ha
      have hbeq : (a.key == k) = false := beq_eq_false_iff_ne.mpr ha
      simp only [List.filter_cons, hbne, if_true]
      rw [List.find?_cons_of_neg _ (by rw [hbeq]; decide)]
      exact ih

theorem find?_filter_other (l : List HeaderEntry) (k kother : String) (hne : kother ≠ k) :
    (l.filter (fun h => h.key != k)).find? (fun h => h.key == kother) =
      l.find? (fun h => h.key == kother) := by
  induction l with
  | nil => rfl
  | cons a t ih =>
    by_cases ha : a.key = k
    · have hbeq : (a.key == kother) = false := beq_eq_false_iff_ne.mpr (by rw [ha]; exact (Ne.symm hne))
      simp only [List.filter_cons, ha, bne_self_eq_false, Bool.false_eq_true, if_false]
      rw [ih, List.find?_cons_of_neg _ (by rw [hbeq]; decide)]
    · have hbne : (a.key != k) = true := bne_iff_ne.mpr ha
      simp only [List.filter_cons, hbne, if_true]
      by_cases ha2 : a.key = kother
      · have hbeq : (a.key == kother) = true := beq_iff_eq.mpr ha2
        rw [List.find?_cons_of_pos _ (by rw [hbeq]), List.find?_cons_of_pos _ (by rw [hbeq])]
      · have hbeq : (a.key == kother) = false := beq_eq_false_iff_ne.mpr ha2
        rw [List.find?_cons_of_neg _ (by rw [hbeq]; decide), List.find?_cons_of_neg _ (by rw [hbeq]; decide)]
        exact ih

theorem headerFirst_erase_self (e : Envelope) (k : String) :
    headerFirst (eraseHeader e k) k = none := by
  show (((e.header.filter (fun h => h.key != k)).find? (fun h => h.key == k)).map fun h => h.first) = none
  rw [find?_filter_ne]
  rfl

theorem headerFirst_erase (e : Envelope) (k kother : String) (hne : kother ≠ k) :
    headerFirst (eraseHeader e k) kother = headerFirst e kother := by
  show (((e.header.filter (fun h => h.key != k)).find? (fun h => h.key == kother)).map fun h => h.first) =
    ((e.header.find? (fun h => h.key == kother)).map fun h => h.first)
  rw [find?_filter_other e.header k kother hne]

theorem fill_erase_other (na : String → Option Address) (e : Envelope) (k kother : String) (hne : kother ≠ k) :
    fillAddressFromHeader na (eraseHeader e k) kother = fillAddressFromHeader na e kother := by
  unfold fillAddressFromHeader
  rw [headerFirst_erase e k kother hne]

theorem rowVals_erase (na : String → Option Address) (cfg : Config) (e : Envelope) (hash : String) (rc : Address) (k v : String)
    (hk : k ∈ (["Message-Id", "To", "Reply-To", "Sender"] : List String))
    (hv : headerFirst e k = some v) (hna : na v = none) :
    rowVals na cfg (eraseHeader e k) hash rc = rowVals na cfg e hash rc := by
  have hfk : fillAddressFromHeader na e k = "" := by
    unfold fillAddressFromHeader
    rw [hv]
    show (match na v with | some addr => addr.render | none => "") = ""
    rw [hna]
  have hfk2 : fillAddressFromHeader na (eraseHeader e k) k = "" := by
    unfold fillAddressFromHeader
    rw [headerFirst_erase_self]
  simp only [List.mem_cons, List.mem_singleton, List.not_mem_nil, or_false] at hk
  rcases hk with rfl | rfl | rfl | rfl
  · unfold rowVals derivedTo derivedMid contentTypeCol
    rw [hfk, hfk2,
      fill_erase_other na e "Message-Id" "To" (by decide),
      fill_erase_other na e "Message-Id" "Reply-To" (by decide),
      fill_erase_other na e "Message-Id" "Sender" (by decide),
      headerFirst_erase e "Message-Id" "Content-Type" (by decide)]
    rfl
  · unfold rowVals derivedTo derivedMid contentTypeCol
    rw [hfk, hfk2,
      fill_erase_other na e "To" "Message-Id" (by decide),
      fill_erase_other na e "To" "Reply-To" (by decide),
      fill_erase_other na e "To" "Sender" (by decide),
      headerFirst_erase e "To" "Content-Type" (by decide)]
    rfl
  · unfold rowVals derivedTo derivedMid contentTypeCol
    rw [hfk, hfk2,
      fill_erase_other na e "Reply-To" "Message-Id" (by decide),
      fill_erase_other na e "Reply-To" "To" (by decide),
      fill_erase_other na e "Reply-To" "Sender" (by decide),
      headerFirst_erase e "Reply-To" "Content-Type" (by decide)]
    rfl
  · unfold rowVals derivedTo derivedMid contentTypeCol
    rw [hfk, hfk2,
      fill_erase_other na e "Sender" "Message-Id" (by decide),
      fill_erase_other na e "Sender" "To" (by decide),
      fill_erase_other na e "Sender" "Reply-To" (by decide),
      headerFirst_erase e "Sender" "Content-Type" (by decide)]
    rfl

theorem saveLoop_congr (na : String → Option Address) (exec : Nat → List Val → ExecOutcome) (cfg : Config) (e1 e2 : Envelope) (hash : String)
    (hrow : ∀ rc, rowVals na cfg e1 hash rc = rowVals na cfg e2 hash rc) :
    ∀ (rcpts : List Address) (i : Nat) (st : MState) (ins : List (List Val)),
      saveLoop na exec cfg e1 hash rcpts i st ins = saveLoop na exec cfg e2 hash rcpts i st ins := by
  intro rcpts
  induction rcpts with
  | nil => intro i st ins; rfl
  | cons rc rest ih =>
    intro i st ins
    cases hp : prepareInsertQuery cfg.mysqlTable 1 st with
    | panicked m =>
      have h1 : saveLoop na exec cfg e1 hash (rc :: rest) i st ins = .crashed m st ins := by
        simp [saveLoop, hp]
      have h2 : saveLoop na exec cfg e2 hash (rc :: rest) i st ins = .crashed m st ins := by
        simp [saveLoop, hp]
      rw [h1, h2]
    | ok s st1 =>
      cases hq : doQuery cfg.mysqlTable (exec i) 1 st1 (rowVals na cfg e2 hash rc) with
      | ret oe st2 =>
        cases oe with
        | none =>
          have hq1 : doQuery cfg.mysqlTable (exec i) 1 st1 (rowVals na cfg e1 hash rc) = .ret none st2 := by
            rw [hrow rc]
            exact hq
          have h1 : saveLoop na exec cfg e1 hash (rc :: rest) i st ins =
              saveLoop na exec cfg e1 hash rest (i + 1) st2 (ins ++ [rowVals na cfg e1 hash rc]) := by
            simp [saveLoop, hp, hq1]
          have h2 : saveLoop na exec cfg e2 hash (rc :: rest) i st ins =
              saveLoop na exec cfg e2 hash rest (i + 1) st2 (ins ++ [rowVals na cfg e2 hash rc]) := by
            simp [saveLoop, hp, hq]
          rw [h1, h2, hrow rc]
          exact ih (i + 1) st2 (ins ++ [rowVals na cfg e2 hash rc])
        | some m =>
          have hq1 : doQuery cfg.mysqlTable (exec i) 1 st1 (rowVals na cfg e1 hash rc) = .ret (some m) st2 := by
            rw [hrow rc]
            exact hq
          have h1 : saveLoop na exec cfg e1 hash (rc :: rest) i st ins =
              .failed st2 (ins ++ [rowVals na cfg e1 hash rc]) := by
            simp [saveLoop, hp, hq1]
          have h2 : saveLoop na exec cfg e2 hash (rc :: rest) i st ins =
              .failed st2 (ins ++ [rowVals na cfg e2 hash rc]) := by
            simp [saveLoop, hp, hq]
          rw [h1, h2, hrow rc]
      | panicOut m d st2 =>
        have hq1 : doQuery cfg.mysqlTable (exec i) 1 st1 (rowVals na cfg e1 hash rc) = .panicOut m d st2 := by
          rw [hrow rc]
          exact hq
        have h1 : saveLoop na exec cfg e1 hash (rc :: rest) i st ins =
            .crashed m st2 (ins ++ [rowVals na cfg e1 hash rc]) := by
          simp [saveLoop, hp, hq1]
        have h2 : saveLoop na exec cfg e2 hash (rc :: rest) i st ins =
            .crashed m st2 (ins ++ [rowVals na cfg e2 hash rc]) := by
          simp [saveLoop, hp, hq]
        rw [h1, h2, hrow rc]

theorem saveEnv_headerFirst (e : Envelope) (k : String) :
    headerFirst (saveEnv e) k = headerFirst e k := by
  unfold saveEnv
  split <;> rfl

theorem saveEnv_erase (e : Envelope) (k : String) :
    saveEnv (eraseHeader e k) = eraseHeader (saveEnv e) k := by
  unfold saveEnv eraseHeader
  by_cases hh : e.hashes.isEmpty <;> simp [hh]

/-- C10: when a header among Message-Id, To, Reply-To and Sender is
present but its first value does not parse as a mail address, the helper
yields the empty string, and the save task behaves exactly as if the
header were absent: same rows bound (so the message-id is synthesized,
the to column falls back to the recipient, reply-to and sender are
stored empty), same outcome kind, same queued id and same cache state. -/
theorem c10_unparsable_header_like_absent (na : String → Option Address) (exec : Nat → List Val → ExecOutcome) (cfg : Config) (st : MState) (e : Envelope) (k v : String)
    (hk : k ∈ (["Message-Id", "To", "Reply-To", "Sender"] : List String))
    (hv : headerFirst e k = some v) (hna : na v = none) :
    fillAddressFromHeader na e k = "" ∧
    (mysqlProcess na exec cfg st (eraseHeader e k) .saveMail).inserts = (mysqlProcess na exec cfg st e .saveMail).inserts ∧
    (mysqlProcess na exec cfg st (eraseHeader e k) .saveMail).outcome.kind = (mysqlProcess na exec cfg st e .saveMail).outcome.kind ∧
    (mysqlProcess na exec cfg st (eraseHeader e k) .saveMail).env.queuedId = (mysqlProcess na exec cfg st e .saveMail).env.queuedId ∧
    (mysqlProcess na exec cfg st (eraseHeader e k) .saveMail).st = (mysqlProcess na exec cfg st e .saveMail).st := by
  have hfill : fillAddressFromHeader na e k = "" := by
    unfold fillAddressFromHeader
    rw [hv]
    show (match na v with | some addr => addr.render | none => "") = ""
    rw [hna]
  have hv2 : headerFirst (saveEnv e) k = some v := by
    rw [saveEnv_headerFirst]
    exact hv
  have hh : saveHash (eraseHeader e k) = saveHash e := rfl
  have hrows : ∀ rc, rowVals na cfg (saveEnv (eraseHeader e k)) (saveHash e) rc = rowVals na cfg (saveEnv e) (saveHash e) rc := by
    intro rc
    rw [saveEnv_erase]
    exact rowVals_erase na cfg (saveEnv e) (saveHash e) rc k v hk hv2 hna
  have hloop : saveLoop na exec cfg (saveEnv (eraseHeader e k)) (saveHash (eraseHeader e k)) (saveEnv (eraseHeader e k)).rcptTo 0 st [] =
      saveLoop na exec cfg (saveEnv e) (saveHash e) (saveEnv e).rcptTo 0 st [] := by
    rw [hh]
    have hrc : (saveEnv (eraseHeader e k)).rcptTo = (saveEnv e).rcptTo := by
      rw [saveEnv_rcptTo, saveEnv_rcptTo]
      rfl
    rw [hrc]
    exact saveLoop_congr na exec cfg (saveEnv (eraseHeader e k)) (saveEnv e) (saveHash e) hrows (saveEnv e).rcptTo 0 st []
  refine ⟨hfill, ?_⟩
  cases hL : saveLoop na exec cfg (saveEnv e) (saveHash e) (saveEnv e).rcptTo 0 st [] with
  | allOk st2 ins =>
    have h2 : mysqlProcess na exec cfg st e .saveMail =
        ⟨.forward (saveEnv e), saveEnv e, ins, st2⟩ := by
      unfold mysqlProcess
      rw [hL]
    have h1 : mysqlProcess na exec cfg st (eraseHeader e k) .saveMail =
        ⟨.forward (saveEnv (eraseHeader e k)), saveEnv (eraseHeader e k), ins, st2⟩ := by
      unfold mysqlProcess
      rw [hloop, hL]
    rw [h1, h2]
    refine ⟨rfl, rfl, ?_, rfl⟩
    rw [saveEnv_erase]
    rfl
  | failed st2 ins =>
    have h2 : mysqlProcess na exec cfg st e .saveMail =
        ⟨.reject "554 Error: could not save email" .storageError, saveEnv e, ins, st2⟩ := by
      unfold mysqlProcess
      rw [hL]
    have h1 : mysqlProcess na exec cfg st (eraseHeader e k) .saveMail =
        ⟨.reject "554 Error: could not save email" .storageError, saveEnv (eraseHeader e k), ins, st2⟩ := by
      unfold mysqlProcess
      rw [hloop, hL]
    rw [h1, h2]
    refine ⟨rfl, rfl, ?_, rfl⟩
    rw [saveEnv_erase]
    rfl
  | crashed m st2 ins =>
    have h2 : mysqlProcess na exec cfg st e .saveMail =
        ⟨.crashed m, saveEnv e, ins, st2⟩ := by
      unfold mysqlProcess
      rw [hL]
    have h1 : mysqlProcess na exec cfg st (eraseHeader e k) .saveMail =
        ⟨.crashed m, saveEnv (eraseHeader e k), ins, st2⟩ := by
      unfold mysqlProcess
      rw [hloop, hL]
    rw [h1, h2]
    refine ⟨rfl, rfl, ?_, rfl⟩
    rw [saveEnv_erase]
    rfl

/-- C10 witness: an unparsable To header on a concrete envelope derives
the empty string and binds the same rows as the envelope without the
header. -/
theorem c10_unparsable_header_like_absent_witness :
    fillAddressFromHeader naNone envBadTo "To" = "" ∧
    (mysqlProcess naNone execAllOk cfg1 MState.empty (eraseHeader envBadTo "To") .saveMail).inserts =
      (mysqlProcess naNone execAllOk cfg1 MState.empty envBadTo .saveMail).inserts :=
  ⟨(c10_unparsable_header_like_absent naNone execAllOk cfg1 MState.empty envBadTo "To" "garbage" (by decide) (by decide) rfl).1,
   (c10_unparsable_header_like_absent naNone execAllOk cfg1 MState.empty envBadTo "To" "garbage" (by decide) (by decide) rfl).2.1⟩

end Guerrilla
